import Mathlib

/-!
Shallow embedding of the ECS core of `src/src/ECS/ECS.h` (an Entity-Component-System
substrate: component identity registry, 32-bit signatures, per-kind component pools,
systems with required signatures, and the Registry that coordinates them).

Conventions of the embedding:
* C++ `unsigned int` values that the code never wraps are embedded as `Nat`.
* `std::bitset<32>` signatures are embedded as `Nat` bitmasks (bit i of the number is
  bit i of the bitset); all component ids the program uses are below `MAX_COMPONENTS`.
* C++ types (`std::type_index` keys, the distinct component kinds `T`) are embedded as
  `Nat` tokens; two tokens are equal exactly when the C++ types are the same.
* The type-erased pools (`IPool` / `Pool<T>`) all store values of one ambient type `α`;
  each component kind's pool lives at index `IdOf(T)` of `componentPools`.
* Operations whose C++ source can hit undefined behavior are embedded with the
  `CppOutcome` result type: `.ok v` is a normal return, `.fatal` is a deliberate
  assertion failure / abort, `.ub` is undefined behavior (e.g. dereferencing or erasing
  the `end()` iterator of a map, or an unchecked null/out-of-range access).
* Members that ECS.h only declares (their ECS.cpp is not in the repository) are
  modelled from the spec; each such definition's doc comment says so explicitly.
-/

/-- Source ECS.h:11: `const unsigned int MAX_COMPONENTS = 32`. -/
def MAX_COMPONENTS : Nat := 32

/-- Source ECS.h:13: `typedef std::bitset<MAX_COMPONENTS> Signature`, embedded as a
natural-number bitmask. -/
abbrev Signature := Nat

/-- `std::bitset::set(pos)` — set bit `pos` to true (as used by ECS.h:164 and 195). -/
def sigSet (s : Signature) (i : Nat) : Signature := s ||| (1 <<< i)

/-- `std::bitset::set(pos, false)` — reset bit `pos` (as used by ECS.h:207). -/
def sigReset (s : Signature) (i : Nat) : Signature :=
  if s.testBit i then s ^^^ (1 <<< i) else s

/-- Result of running a C++ operation: a normal return, a deliberate abort
(assertion failure), or undefined behavior. -/
inductive CppOutcome (α : Type) where
  | ok : α → CppOutcome α
  | fatal : CppOutcome α
  | ub : CppOutcome α
deriving DecidableEq

/-- Source ECS.h:15-26: `IComponent` holds the static counter `nextId`;
`Component<T>::GetId` memoizes `nextId++` in a function-local static, one per type `T`.
The process-wide static state is embedded explicitly: the counter plus the memo table
from type tokens to their assigned ids. -/
structure CompIdState where
  nextId : Nat
  assigned : List (Nat × Nat)
deriving DecidableEq

/-- The state before any `Component<T>::GetId` call: counter 0, nothing memoized. -/
def CompIdState.init : CompIdState := ⟨0, []⟩

/-- Lookup of a type token in the memo table (first match). -/
def lookupAssigned : List (Nat × Nat) → Nat → Option Nat
  | [], _ => none
  | p :: rest, t => if p.1 = t then some p.2 else lookupAssigned rest t

/-- Source ECS.h:22-25: `static auto id = nextId++; return id;` — on the first call for
type token `t` the current counter value is returned and memoized and the counter is
incremented; later calls return the memoized id. The source performs no bound check
against `MAX_COMPONENTS`. -/
def getId (t : Nat) (s : CompIdState) : Nat × CompIdState :=
  match lookupAssigned s.assigned t with
  | some i => (i, s)
  | none => (s.nextId, ⟨s.nextId + 1, (t, s.nextId) :: s.assigned⟩)

/-- Run a sequence of `Component<T>::GetId` calls (by type token) from a state,
keeping only the final state. -/
def runGetIds (ts : List Nat) (s : CompIdState) : CompIdState :=
  ts.foldl (fun acc t => (getId t acc).2) s

/-- Source ECS.h:28-48: an `Entity` is a numeric id; `==`, `!=`, `<`, `>` compare ids
only (the registry back-pointer plays no part in identity). -/
structure Entity where
  id : Nat
deriving DecidableEq

/-- `std::set`-style insertion used by the modelled set/list members: inserting an
already-present element is a no-op. -/
def insertOnce (l : List Entity) (e : Entity) : List Entity :=
  if e ∈ l then l else l ++ [e]

/-- Source ECS.h:50-65: a `System` holds the required `componentSignature` and the
container `entities` of currently matched entities. -/
structure System where
  componentSignature : Signature
  entities : List Entity
deriving DecidableEq

/-- Modelled from the spec: `System::AddEntityToSystem` (declared ECS.h:59; its
definition is not in the repository). Spec §4.4: insert `e` into the matched-entity
container, idempotently (adding an already-present entity is a no-op). -/
def System.addEntityToSystem (s : System) (e : Entity) : System :=
  { s with entities := insertOnce s.entities e }

/-- Modelled from the spec: `System::RemoveEntityFromSystem` (declared ECS.h:60; its
definition is not in the repository). Spec §4.4: erase `e`, idempotently. -/
def System.removeEntityFromSystem (s : System) (e : Entity) : System :=
  { s with entities := s.entities.filter (fun x => x ≠ e) }

/-- Source ECS.h:160-165: `RequireComponent<T>` sets bit `Component<T>::GetId()` in the
system's required signature. The component id obtained from `getId` is passed in. -/
def System.requireComponent (s : System) (cid : Nat) : System :=
  { s with componentSignature := sigSet s.componentSignature cid }

/-- Source ECS.h:72-95: `Pool<T>` wraps a `std::vector<T>`. All pools of the embedding
store the one ambient value type `α`. -/
structure Pool (α : Type) where
  data : List α
deriving DecidableEq

/-- Source ECS.h:82: `GetSize` is the vector's size. -/
def Pool.getSize (p : Pool α) : Nat := p.data.length

/-- Source ECS.h:84: `Resize(n)` is `std::vector::resize(n)`: truncate to `n` elements
when `n` is smaller than the size, otherwise pad with default-constructed elements. -/
def Pool.resize [Inhabited α] (p : Pool α) (n : Nat) : Pool α :=
  ⟨p.data.take n ++ List.replicate (n - p.data.length) default⟩

/-- Source ECS.h:90: `Set(index, object)` overwrites slot `index`
(`data[index] = object`; callers keep the index in range). -/
def Pool.set (p : Pool α) (index : Nat) (v : α) : Pool α :=
  ⟨p.data.set index v⟩

/-- Source ECS.h:92: `Get(index)` reads slot `index`; an out-of-range index is
undefined behavior in the source, embedded as `none`. -/
def Pool.get (p : Pool α) (index : Nat) : Option α := p.data.get? index

/-- Source ECS.h:77: `Pool(unsigned int size = 100)` default-constructs 100 slots
(this is how `Registry::AddComponent` creates a pool, ECS.h:179-180). -/
def Pool.mkDefault [Inhabited α] : Pool α := ⟨List.replicate 100 default⟩

/-- Lookup in the `systems` map (`std::unordered_map<std::type_index, ...>::find`),
embedded over an association list with unique keys. -/
def findSystem : List (Nat × System) → Nat → Option System
  | [], _ => none
  | p :: rest, k => if p.1 = k then some p.2 else findSystem rest k

/-- `std::unordered_map::insert` (as used by ECS.h:137): inserts only when the key is
absent; an existing mapping is left in place and the new value is discarded. -/
def insertSystem (m : List (Nat × System)) (k : Nat) (s : System) : List (Nat × System) :=
  match findSystem m k with
  | some _ => m
  | none => (k, s) :: m

/-- `std::unordered_map::erase(iterator)` on the iterator returned by `find`: removes
the first (under unique keys: the only) entry with key `k`. -/
def eraseFirstSystem : List (Nat × System) → Nat → List (Nat × System)
  | [], _ => []
  | p :: rest, k => if p.1 = k then rest else p :: eraseFirstSystem rest k

/-- Source ECS.h:97-130: the `Registry`. `systems` is keyed by the system type token
(`std::type_index`); `componentPools` holds `none` for a `nullptr` pool slot. -/
structure Registry (α : Type) where
  numEntities : Nat
  entitiesToBeAdded : List Entity
  entitiesToBeKilled : List Entity
  componentPools : List (Option (Pool α))
  entityComponentSignatures : List Signature
  systems : List (Nat × System)
deriving DecidableEq

/-- A freshly constructed Registry: all counters zero, all containers empty. -/
def Registry.mkInit : Registry α := ⟨0, [], [], [], [], []⟩

/-- The signature stored for entity id `eid`
(`entityComponentSignatures[eid]`; callers keep the index in range). -/
def Registry.sigOf (r : Registry α) (eid : Nat) : Signature :=
  r.entityComponentSignatures.getD eid 0

/-- Source ECS.h:132-138: `AddSystem<TSystem>` constructs a new system instance and
`insert`s it under the type key; an already-registered kind keeps its old instance. -/
def Registry.addSystem (r : Registry α) (k : Nat) (s : System) : Registry α :=
  { r with systems := insertSystem r.systems k s }

/-- Source ECS.h:140-145: `RemoveSystem<TSystem>` erases the iterator returned by
`find` with no guard; when the kind is absent, erasing the `end()` iterator is
undefined behavior. -/
def Registry.removeSystem (r : Registry α) (k : Nat) : CppOutcome (Registry α) :=
  match findSystem r.systems k with
  | none => CppOutcome.ub
  | some _ => CppOutcome.ok { r with systems := eraseFirstSystem r.systems k }

/-- Source ECS.h:147-151: `HasSystem<TSystem>` compares `find` with `end()`. -/
def Registry.hasSystem (r : Registry α) (k : Nat) : Bool :=
  (findSystem r.systems k).isSome

/-- Source ECS.h:153-158: `GetSystem<TSystem>` dereferences the iterator returned by
`find` with no guard; when the kind is absent, dereferencing the `end()` iterator is
undefined behavior — there is no assertion and no abort in the source. -/
def Registry.getSystem (r : Registry α) (k : Nat) : CppOutcome System :=
  match findSystem r.systems k with
  | none => CppOutcome.ub
  | some s => CppOutcome.ok s

/-- Source ECS.h:167-199: `AddComponent<TComponent>(entity, args...)`.
`cid` is `Component<TComponent>::GetId()` and `v` is the value `TComponent(args...)`
constructed from the arguments. Steps, as in the source: grow `componentPools` with
`nullptr` slots up to index `cid` if needed; create a default `Pool` (100 slots) when
the slot is null; `Resize(numEntities)` when `entity.GetId() >= GetSize()`;
`Set(entityId, newComponent)`; set bit `cid` of the entity's signature. -/
def Registry.addComponent [Inhabited α] (r : Registry α) (cid : Nat) (e : Entity)
    (v : α) : Registry α :=
  let pools0 :=
    if r.componentPools.length ≤ cid then
      r.componentPools ++ List.replicate (cid + 1 - r.componentPools.length) none
    else r.componentPools
  let pool0 :=
    match pools0.getD cid none with
    | none => Pool.mkDefault
    | some p => p
  let pool1 := if pool0.getSize ≤ e.id then pool0.resize r.numEntities else pool0
  let pool2 := pool1.set e.id v
  { r with
    componentPools := pools0.set cid (some pool2)
    entityComponentSignatures :=
      r.entityComponentSignatures.set e.id (sigSet (r.sigOf e.id) cid) }

/-- Source ECS.h:201-211: `RemoveComponent<TComponent>(entity)` resets bit `cid` of
`entityComponentSignatures[entity.GetId()]` and touches nothing else. -/
def Registry.removeComponent (r : Registry α) (cid : Nat) (e : Entity) : Registry α :=
  { r with
    entityComponentSignatures :=
      r.entityComponentSignatures.set e.id (sigReset (r.sigOf e.id) cid) }

/-- Modelled from the spec: `Registry::HasComponent<TComponent>` is declared
(ECS.h:120) but defined nowhere in the repository. Spec §4.5: it returns the test of
bit `IdOf(T)` of the entity's signature. -/
def Registry.hasComponent (r : Registry α) (cid : Nat) (e : Entity) : Bool :=
  (r.sigOf e.id).testBit cid

/-- Source ECS.h:213-223: `GetComponent<TComponent>(entity)` downcasts
`componentPools[cid]` and returns `Get(entityId)`; a null pool or an out-of-range
index is undefined behavior in the source, embedded as `none`. -/
def Registry.getComponent (r : Registry α) (cid : Nat) (e : Entity) : Option α :=
  match r.componentPools.getD cid none with
  | none => none
  | some p => p.get e.id

/-- Modelled from the spec: `Registry::CreateEntity` is declared (ECS.h:113) but its
definition is not in the repository. Spec §4.5: allocate `id = entityCount++`, grow
`perEntitySignature` (the new entity has the empty signature), enqueue the entity into
`toAdd`; no system membership changes. -/
def Registry.createEntity (r : Registry α) : Entity × Registry α :=
  let e : Entity := ⟨r.numEntities⟩
  (e,
    { r with
      numEntities := r.numEntities + 1
      entityComponentSignatures := r.entityComponentSignatures ++ [0]
      entitiesToBeAdded := insertOnce r.entitiesToBeAdded e })

/-- Modelled from the spec: enqueuing an entity for death (the `toKill` queue of spec
§3/§4.5; ECS.h:101 declares the queue but no enqueue member is in the repository).
The entity is inserted into `entitiesToBeKilled`; nothing else changes. -/
def Registry.killEntity (r : Registry α) (e : Entity) : Registry α :=
  { r with entitiesToBeKilled := insertOnce r.entitiesToBeKilled e }

/-- Modelled from the spec: `Registry::AddEntityToSystems` is declared (ECS.h:129) but
its definition is not in the repository. Spec §4.5: for every registered system, if
`(perEntitySignature[e.id] & system.requiredSignature) == system.requiredSignature`
then `system.AddEntityToSystem(e)`. -/
def Registry.addEntityToSystems (r : Registry α) (e : Entity) : Registry α :=
  { r with
    systems := r.systems.map (fun p =>
      (p.1,
        if r.sigOf e.id &&& p.2.componentSignature = p.2.componentSignature then
          p.2.addEntityToSystem e
        else p.2)) }

/-- Helper of the modelled `Update`: remove `e` from every registered system. -/
def Registry.removeEntityFromSystems (r : Registry α) (e : Entity) : Registry α :=
  { r with systems := r.systems.map (fun p => (p.1, p.2.removeEntityFromSystem e)) }

/-- Modelled from the spec: `Registry::Update` is declared (ECS.h:115) but its
definition is not in the repository. Spec §4.5: for each `e` in `toAdd` call
`AddEntityToSystems(e)` and clear `toAdd`; for each `e` in `toKill` remove `e` from
every system and clear `toKill`. -/
def Registry.update (r : Registry α) : Registry α :=
  let r1 := r.entitiesToBeAdded.foldl Registry.addEntityToSystems r
  let r2 := { r1 with entitiesToBeAdded := ([] : List Entity) }
  let r3 := r2.entitiesToBeKilled.foldl Registry.removeEntityFromSystems r2
  { r3 with entitiesToBeKilled := ([] : List Entity) }

/-! Concrete fixtures used by the witness theorems. -/

/-- A registry with one entity (id 0) carrying component 0, and one registered system
(key 7) requiring component 0, with no pending queue entries. -/
def rFix : Registry Int :=
  { numEntities := 1
    entitiesToBeAdded := []
    entitiesToBeKilled := []
    componentPools := [some ⟨[(5 : Int)]⟩]
    entityComponentSignatures := [1]
    systems := [(7, ⟨1, []⟩)] }

/-- A registry with two entities whose signatures have bits {0,1} and {0}, a pool for
component 0, and an empty system map. -/
def rFix2 : Registry Int :=
  { numEntities := 2
    entitiesToBeAdded := [⟨0⟩, ⟨1⟩]
    entitiesToBeKilled := []
    componentPools := [some ⟨[(5 : Int), (6 : Int)]⟩]
    entityComponentSignatures := [3, 1]
    systems := [] }

/-! Helper lemmas about signatures, lists and the systems map. -/

lemma one_shiftLeft_eq_pow (i : Nat) : (1 <<< i) = 2 ^ i := by
  rw [Nat.shiftLeft_eq, one_mul]

lemma testBit_sigSet_self (s : Signature) (i : Nat) : (sigSet s i).testBit i = true := by
  simp [sigSet, one_shiftLeft_eq_pow, Nat.testBit_or, Nat.testBit_two_pow_self]

lemma testBit_sigSet_ne (s : Signature) {i j : Nat} (h : j ≠ i) :
    (sigSet s i).testBit j = s.testBit j := by
  simp [sigSet, one_shiftLeft_eq_pow, Nat.testBit_or, Nat.testBit_two_pow_of_ne (Ne.symm h)]

lemma testBit_sigReset_self (s : Signature) (i : Nat) : (sigReset s i).testBit i = false := by
  unfold sigReset
  cases hb : s.testBit i with
  | false => simp [hb]
  | true => simp [hb, Nat.testBit_xor, one_shiftLeft_eq_pow, Nat.testBit_two_pow_self]

lemma testBit_sigReset_ne (s : Signature) {i j : Nat} (h : j ≠ i) :
    (sigReset s i).testBit j = s.testBit j := by
  unfold sigReset
  cases hb : s.testBit i with
  | false => simp
  | true => simp [Nat.testBit_xor, one_shiftLeft_eq_pow, Nat.testBit_two_pow_of_ne (Ne.symm h)]

lemma get?_replicate {β : Type} (v : β) : ∀ (n i : Nat), i < n →
    (List.replicate n v).get? i = some v := by
  intro n
  induction n with
  | zero => intro i h; omega
  | succ m ih =>
    intro i h
    cases i with
    | zero => rfl
    | succ j => simpa [List.replicate_succ] using ih j (by omega)

lemma getD_append_replicate_none {β : Type} (l : List (Option β)) (m i : Nat) :
    (l ++ List.replicate m (none : Option β)).getD i none = l.getD i none := by
  by_cases h : i < l.length
  · show ((l ++ _).get? i).getD none = (l.get? i).getD none
    rw [List.get?_append h]
  · have h1 : l.get? i = none := List.get?_eq_none.mpr (by omega)
    show ((l ++ _).get? i).getD none = (l.get? i).getD none
    rw [List.get?_append_right (by omega), h1]
    by_cases h2 : i - l.length < m
    · rw [get?_replicate _ _ _ h2]; rfl
    · rw [List.get?_eq_none.mpr (by simp; omega)]

lemma getD_set_self {β : Type} (l : List β) (i : Nat) (v d : β) (h : i < l.length) :
    (l.set i v).getD i d = v := by
  show ((l.set i v).get? i).getD d = v
  rw [List.get?_set_eq_of_lt v h]; rfl

lemma getD_set_ne {β : Type} (l : List β) {i j : Nat} (v d : β) (h : j ≠ i) :
    (l.set i v).getD j d = l.getD j d := by
  show ((l.set i v).get? j).getD d = (l.get? j).getD d
  rw [List.get?_set_ne v l (Ne.symm h)]

lemma mem_insertOnce (l : List Entity) (e x : Entity) :
    x ∈ insertOnce l e ↔ (x ∈ l ∨ x = e) := by
  unfold insertOnce
  by_cases h : e ∈ l
  · simp only [if_pos h]
    constructor
    · exact Or.inl
    · rintro (hx | rfl)
      · exact hx
      · exact h
  · simp [if_neg h]

lemma mem_addEntityToSystem (s : System) (e x : Entity) :
    x ∈ (s.addEntityToSystem e).entities ↔ (x ∈ s.entities ∨ x = e) := by
  unfold System.addEntityToSystem
  exact mem_insertOnce s.entities e x

lemma findSystem_map_val (f : System → System) :
    ∀ (m : List (Nat × System)) (k : Nat),
      findSystem (m.map (fun p => (p.1, f p.2))) k = (findSystem m k).map f := by
  intro m
  induction m with
  | nil => intro k; rfl
  | cons p rest ih =>
    intro k
    by_cases h : p.1 = k <;> simp [findSystem, h, ih]

lemma findSystem_addEntityToSystems (r : Registry α) (e : Entity) (k : Nat) :
    findSystem (r.addEntityToSystems e).systems k =
      (findSystem r.systems k).map (fun s =>
        if r.sigOf e.id &&& s.componentSignature = s.componentSignature then
          s.addEntityToSystem e
        else s) := by
  exact findSystem_map_val
    (fun s =>
      if r.sigOf e.id &&& s.componentSignature = s.componentSignature then
        s.addEntityToSystem e
      else s)
    r.systems k

lemma lookupAssigned_getId (s : CompIdState) (u t v : Nat)
    (h : lookupAssigned s.assigned t = some v) :
    lookupAssigned ((getId u s).2).assigned t = some v := by
  unfold getId
  cases hu : lookupAssigned s.assigned u with
  | some i => simpa using h
  | none =>
    have hne : u ≠ t := by
      intro he; rw [he] at hu; rw [hu] at h; exact Option.noConfusion h
    simp [lookupAssigned, hne, h]

lemma lookupAssigned_runGetIds (v t : Nat) : ∀ (ts : List Nat) (s : CompIdState),
    lookupAssigned s.assigned t = some v →
    lookupAssigned (runGetIds ts s).assigned t = some v := by
  intro ts
  induction ts with
  | nil => intro s h; exact h
  | cons u rest ih =>
    intro s h
    exact ih ((getId u s).2) (lookupAssigned_getId s u t v h)

lemma count_zero_findSystem_none (k : Nat) : ∀ (m : List (Nat × System)),
    (m.map Prod.fst).count k = 0 → findSystem m k = none := by
  intro m
  induction m with
  | nil => intro _; rfl
  | cons p rest ih =>
    intro h
    simp only [List.map_cons, List.count_cons] at h
    have hne : p.1 ≠ k := by
      intro he
      rw [he] at h
      simp at h
    have hrest : (rest.map Prod.fst).count k = 0 := by
      by_cases hb : p.1 = k
      · exact absurd hb hne
      · simpa [hb] using h
    simp [findSystem, hne, ih hrest]

lemma findSystem_eraseFirst_self (k : Nat) : ∀ (m : List (Nat × System)),
    (m.map Prod.fst).count k ≤ 1 →
    findSystem (eraseFirstSystem m k) k = none := by
  intro m
  induction m with
  | nil => intro _; rfl
  | cons p rest ih =>
    intro h
    simp only [List.map_cons, List.count_cons] at h
    by_cases hp : p.1 = k
    · have : (rest.map Prod.fst).count k = 0 := by
        rw [if_pos (by simpa using hp)] at h
        omega
      simpa [eraseFirstSystem, hp] using count_zero_findSystem_none k rest this
    · have hrest : (rest.map Prod.fst).count k ≤ 1 := by
        rw [if_neg (by simpa using hp)] at h
        omega
      simp [eraseFirstSystem, findSystem, hp, ih hrest]

lemma findSystem_eraseFirst_other (k k2 : Nat) (hne : k2 ≠ k) :
    ∀ (m : List (Nat × System)),
      findSystem (eraseFirstSystem m k) k2 = findSystem m k2 := by
  intro m
  induction m with
  | nil => rfl
  | cons p rest ih =>
    by_cases hp : p.1 = k
    · have hp2 : p.1 ≠ k2 := by rw [hp]; exact fun he => hne he.symm
      simp [eraseFirstSystem, findSystem, hp, hp2, Ne.symm hne]
    · by_cases hq : p.1 = k2 <;> simp [eraseFirstSystem, findSystem, hp, hq, hne, ih]

lemma length_eraseFirst_of_found (k : Nat) : ∀ (m : List (Nat × System)) (s : System),
    findSystem m k = some s → (eraseFirstSystem m k).length + 1 = m.length := by
  intro m
  induction m with
  | nil => intro s h; exact Option.noConfusion h
  | cons p rest ih =>
    intro s h
    by_cases hp : p.1 = k
    · simp [eraseFirstSystem, hp]
    · rw [findSystem, if_neg hp] at h
      simp [eraseFirstSystem, hp, ih s h]

lemma foldl_addEntityToSystems_pools (l : List Entity) : ∀ (r : Registry α),
    (l.foldl Registry.addEntityToSystems r).componentPools = r.componentPools := by
  induction l with
  | nil => intro r; rfl
  | cons e rest ih => intro r; exact ih (r.addEntityToSystems e)

lemma foldl_removeEntityFromSystems_pools (l : List Entity) : ∀ (r : Registry α),
    (l.foldl Registry.removeEntityFromSystems r).componentPools = r.componentPools := by
  induction l with
  | nil => intro r; rfl
  | cons e rest ih => intro r; exact ih (r.removeEntityFromSystems e)

lemma foldl_removeEntityFromSystems_toAdd (l : List Entity) : ∀ (r : Registry α),
    (l.foldl Registry.removeEntityFromSystems r).entitiesToBeAdded
      = r.entitiesToBeAdded := by
  induction l with
  | nil => intro r; rfl
  | cons e rest ih => intro r; exact ih (r.removeEntityFromSystems e)

/-! Claim theorems. -/

/-- Claim C5: every `Component<T>::GetId` call for one component kind within one
process run returns the same id — the memoized value survives the first call, any
interleaved sequence of calls for other kinds, and repeated calls — and a first call
for a never-before-seen kind allocates the next sequential id, starting at 0 in the
initial state and continuing one by one for each further fresh kind. -/
theorem C5_component_id_stable (s : CompIdState) (t u : Nat) (ts : List Nat)
    (hft : lookupAssigned s.assigned t = none)
    (hfu : lookupAssigned s.assigned u = none)
    (hne : u ≠ t) :
    (getId t ((getId t s).2)).1 = (getId t s).1 ∧
    (getId t (runGetIds ts (getId t s).2)).1 = (getId t s).1 ∧
    (getId t s).1 = s.nextId ∧
    (getId t CompIdState.init).1 = 0 ∧
    (getId u ((getId t s).2)).1 = s.nextId + 1 := by
  have hstep : (getId t s) = (s.nextId, ⟨s.nextId + 1, (t, s.nextId) :: s.assigned⟩) := by
    simp [getId, hft]
  refine ⟨?_, ?_, ?_, ?_, ?_⟩
  · rw [hstep]
    simp [getId, lookupAssigned]
  · rw [hstep]
    have hl : lookupAssigned (⟨s.nextId + 1, (t, s.nextId) :: s.assigned⟩ :
        CompIdState).assigned t = some s.nextId := by
      simp [lookupAssigned]
    have := lookupAssigned_runGetIds s.nextId t ts _ hl
    simp [getId, this]
  · rw [hstep]
  · simp [getId, CompIdState.init, lookupAssigned]
  · rw [hstep]
    simp [getId, lookupAssigned, Ne.symm hne, hfu]

/-- Claim C5 witness: the theorem instantiated at the initial state with kinds 5 and 9
and an interleaved run of kinds 1, 2, 3. -/
theorem C5_component_id_stable_witness :
    (getId 5 ((getId 5 CompIdState.init).2)).1 = (getId 5 CompIdState.init).1 ∧
    (getId 5 (runGetIds [1, 2, 3] (getId 5 CompIdState.init).2)).1
      = (getId 5 CompIdState.init).1 ∧
    (getId 5 CompIdState.init).1 = CompIdState.init.nextId ∧
    (getId 5 CompIdState.init).1 = 0 ∧
    (getId 9 ((getId 5 CompIdState.init).2)).1 = CompIdState.init.nextId + 1 :=
  C5_component_id_stable CompIdState.init 5 9 [1, 2, 3] rfl rfl (by decide)

/-- Claim C6 counterexample: after requesting ids for the 32 distinct kinds
0..31, requesting an id for the 33rd distinct kind (token 32) does not abort:
`GetId` returns normally with the id `MAX_COMPONENTS = 32` — exactly the
"id of 32 or greater" outcome the claim says cannot happen. -/
theorem C6_counterexample :
    (getId 32 (runGetIds (List.range 32) CompIdState.init)).1 = MAX_COMPONENTS := by
  decide

/-- Claim C6 amended: `Component<T>::GetId` contains no check against
`MAX_COMPONENTS`: a first call for a fresh kind made when the counter has already
reached 32 returns the next sequential id, which is 32 or greater, as an ordinary
return value (no assertion or abort exists in the source). -/
theorem C6_amended_overflow_unchecked (s : CompIdState) (t : Nat)
    (hfresh : lookupAssigned s.assigned t = none)
    (hfull : MAX_COMPONENTS ≤ s.nextId) :
    (getId t s).1 = s.nextId ∧ MAX_COMPONENTS ≤ (getId t s).1 := by
  have hstep : (getId t s).1 = s.nextId := by simp [getId, hfresh]
  exact ⟨hstep, by rw [hstep]; exact hfull⟩

/-- Claim C6 amended witness: the amended theorem instantiated at the state reached
after requesting the 32 kinds 0..31, with fresh kind 32. -/
theorem C6_amended_overflow_unchecked_witness :
    (getId 32 (runGetIds (List.range 32) CompIdState.init)).1
      = (runGetIds (List.range 32) CompIdState.init).nextId ∧
    MAX_COMPONENTS ≤ (getId 32 (runGetIds (List.range 32) CompIdState.init)).1 :=
  C6_amended_overflow_unchecked (runGetIds (List.range 32) CompIdState.init) 32
    (by decide) (by decide)

/-- Claim C9: `AddSystem<S>` when a system of kind `S` is already registered leaves
the system map unchanged (`std::unordered_map::insert` does not overwrite an existing
key): the originally registered instance is still the one `GetSystem<S>` returns, and
the newly constructed instance is discarded. -/
theorem C9_add_system_no_overwrite (α : Type) (r : Registry α) (k : Nat)
    (s0 snew : System) (h : findSystem r.systems k = some s0) :
    (r.addSystem k snew).systems = r.systems ∧
    (r.addSystem k snew).getSystem k = CppOutcome.ok s0 := by
  constructor
  · show insertSystem r.systems k snew = r.systems
    simp [insertSystem, h]
  · show Registry.getSystem _ k = _
    simp [Registry.getSystem, Registry.addSystem, insertSystem, h]

/-- Claim C9 witness: the theorem instantiated at the fixture registry, whose system
map registers kind 7, with a discarded new instance. -/
theorem C9_add_system_no_overwrite_witness :
    (rFix.addSystem 7 ⟨0, []⟩).systems = rFix.systems ∧
    (rFix.addSystem 7 ⟨0, []⟩).getSystem 7 = CppOutcome.ok ⟨1, []⟩ :=
  C9_add_system_no_overwrite Int rFix 7 ⟨1, []⟩ ⟨0, []⟩ (by decide)

/-- Claim C10: `RemoveSystem<S>` erases the iterator returned by `find` without a
guard, so when kind `S` is absent the call is undefined behavior (erasing the `end()`
iterator); when a unique instance of kind `S` is registered the call removes exactly
that one entry — afterwards `HasSystem<S>()` is false, every other kind's entry is
untouched, and the map is one entry shorter. -/
theorem C10_remove_system (α : Type) (r : Registry α) (k k2 : Nat) (s0 : System)
    (hcount : (r.systems.map Prod.fst).count k ≤ 1)
    (hk2 : k2 ≠ k) :
    (findSystem r.systems k = none → r.removeSystem k = CppOutcome.ub) ∧
    (findSystem r.systems k = some s0 →
      ∃ r2, r.removeSystem k = CppOutcome.ok r2 ∧
        r2.hasSystem k = false ∧
        findSystem r2.systems k2 = findSystem r.systems k2 ∧
        r2.systems.length + 1 = r.systems.length) := by
  constructor
  · intro h
    simp [Registry.removeSystem, h]
  · intro h
    refine ⟨{ r with systems := eraseFirstSystem r.systems k }, ?_, ?_, ?_, ?_⟩
    · simp [Registry.removeSystem, h]
    · show (findSystem (eraseFirstSystem r.systems k) k).isSome = false
      rw [findSystem_eraseFirst_self k r.systems hcount]
      rfl
    · exact findSystem_eraseFirst_other k k2 hk2 r.systems
    · exact length_eraseFirst_of_found k r.systems s0 h

/-- Claim C10 witness: the theorem instantiated at the fixture registry (kind 7
registered once); the absent branch is vacuous there and the present branch produces
the concrete erased registry. -/
theorem C10_remove_system_witness :
    (findSystem rFix.systems 7 = none → rFix.removeSystem 7 = CppOutcome.ub) ∧
    (findSystem rFix.systems 7 = some ⟨1, []⟩ →
      ∃ r2, rFix.removeSystem 7 = CppOutcome.ok r2 ∧
        r2.hasSystem 7 = false ∧
        findSystem r2.systems 3 = findSystem rFix.systems 3 ∧
        r2.systems.length + 1 = rFix.systems.length) :=
  C10_remove_system Int rFix 7 3 ⟨1, []⟩ (by decide) (by decide)

/-- Claim C8 counterexample: on a freshly constructed registry (no system
registered), `GetSystem<S>()` does not fail fast — the source dereferences the
`end()` iterator of the systems map with no assertion, which is undefined behavior,
not an abort or assertion failure. -/
theorem C8_counterexample :
    Registry.getSystem (Registry.mkInit : Registry Int) 0 = CppOutcome.ub ∧
    Registry.getSystem (Registry.mkInit : Registry Int) 0
      ≠ (CppOutcome.fatal : CppOutcome System) := by
  decide

/-- Claim C8 amended: `GetSystem<S>()` when no system of kind `S` is registered is
undefined behavior (an unguarded dereference of the `end()` iterator returned by
`find`), not a checked abort or assertion failure; when a system of kind `S` is
registered, `GetSystem<S>()` returns the registered instance stored in the map. -/
theorem C8_get_system (α : Type) (r : Registry α) (k : Nat) :
    (findSystem r.systems k = none →
      r.getSystem k = CppOutcome.ub ∧ r.getSystem k ≠ CppOutcome.fatal) ∧
    (∀ s, findSystem r.systems k = some s → r.getSystem k = CppOutcome.ok s) := by
  constructor
  · intro h
    constructor
    · simp [Registry.getSystem, h]
    · simp [Registry.getSystem, h]
  · intro s h
    simp [Registry.getSystem, h]

/-- Claim C8 amended witness: the amended theorem instantiated at the fixture
registry — the absent branch at the unregistered kind 0, the present branch at the
registered kind 7. -/
theorem C8_get_system_witness :
    (rFix.getSystem 0 = CppOutcome.ub ∧ rFix.getSystem 0 ≠ CppOutcome.fatal) ∧
    rFix.getSystem 7 = CppOutcome.ok ⟨1, []⟩ :=
  ⟨(C8_get_system Int rFix 0).1 (by decide),
   (C8_get_system Int rFix 7).2 ⟨1, []⟩ (by decide)⟩

/-- Claim C1: `AddEntityToSystems(e)` puts `e` into a registered system's
matched-entity list exactly when the bitwise AND of `e`'s current signature with the
system's required signature equals the required signature (membership afterwards is
membership before or that superset test); the required signature built by
`RequireComponent` is independent of declaration order; and a system requiring kinds
{a, b} can only pass the test for an entity whose signature has both bit a and
bit b set. -/
theorem C1_system_matching (α : Type) (r : Registry α) (e : Entity) (k : Nat)
    (s : System) (hfind : findSystem r.systems k = some s) :
    (∃ s2, findSystem (r.addEntityToSystems e).systems k = some s2 ∧
        s2.componentSignature = s.componentSignature ∧
        (e ∈ s2.entities ↔
          (e ∈ s.entities ∨
            r.sigOf e.id &&& s.componentSignature = s.componentSignature))) ∧
    (∀ (s0 : System) (a b : Nat),
        (s0.requireComponent a).requireComponent b
          = (s0.requireComponent b).requireComponent a) ∧
    (∀ (sig a b : Nat),
        sig &&& sigSet (sigSet 0 a) b = sigSet (sigSet 0 a) b →
        sig.testBit a = true ∧ sig.testBit b = true) := by
  refine ⟨?_, ?_, ?_⟩
  · rw [findSystem_addEntityToSystems, hfind]
    by_cases hc : r.sigOf e.id &&& s.componentSignature = s.componentSignature
    · refine ⟨s.addEntityToSystem e, by simp [hc], rfl, ?_⟩
      rw [mem_addEntityToSystem]
      constructor
      · intro _; exact Or.inr hc
      · intro _; exact Or.inr rfl
    · refine ⟨s, by simp [hc], rfl, ?_⟩
      constructor
      · intro h; exact Or.inl h
      · rintro (h | h)
        · exact h
        · exact absurd h hc
  · intro s0 a b
    unfold System.requireComponent sigSet
    rw [Nat.lor_assoc, Nat.lor_assoc, Nat.lor_comm (1 <<< a) (1 <<< b)]
  · intro sig a b h
    have hta : (sigSet (sigSet 0 a) b).testBit a = true := by
      by_cases hab : a = b
      · rw [hab]; exact testBit_sigSet_self _ b
      · rw [testBit_sigSet_ne _ hab]; exact testBit_sigSet_self _ a
    have htb : (sigSet (sigSet 0 a) b).testBit b = true := testBit_sigSet_self _ b
    constructor
    · have := congrArg (fun n => n.testBit a) h
      simpa [Nat.testBit_and, hta] using this
    · have := congrArg (fun n => n.testBit b) h
      simpa [Nat.testBit_and, htb] using this

/-- Claim C1 witness: the theorem instantiated at the fixture registry (system of
kind 7 requiring component 0, entity 0 whose signature has bit 0 set). -/
theorem C1_system_matching_witness :
    (∃ s2, findSystem (rFix.addEntityToSystems ⟨0⟩).systems 7 = some s2 ∧
        s2.componentSignature = (⟨1, []⟩ : System).componentSignature ∧
        (Entity.mk 0 ∈ s2.entities ↔
          (Entity.mk 0 ∈ (⟨1, []⟩ : System).entities ∨
            rFix.sigOf 0 &&& (⟨1, []⟩ : System).componentSignature
              = (⟨1, []⟩ : System).componentSignature))) ∧
    (∀ (s0 : System) (a b : Nat),
        (s0.requireComponent a).requireComponent b
          = (s0.requireComponent b).requireComponent a) ∧
    (∀ (sig a b : Nat),
        sig &&& sigSet (sigSet 0 a) b = sigSet (sigSet 0 a) b →
        sig.testBit a = true ∧ sig.testBit b = true) :=
  C1_system_matching Int rFix ⟨0⟩ 7 ⟨1, []⟩ (by decide)

/-- Claim C4: `RemoveComponent<T>(e)` only resets bit `IdOf(T)` of
`perEntitySignature[e.id]`: afterwards `HasComponent<T>(e)` is false, every other
kind's `HasComponent<U>(e)` is unchanged, every other entity's signature is
unchanged, and the component pools are untouched. -/
theorem C4_remove_component (α : Type) (r : Registry α) (cid cid2 : Nat)
    (e e2 : Entity)
    (hsig : e.id < r.entityComponentSignatures.length)
    (hcid : cid2 ≠ cid)
    (hent : e2.id ≠ e.id) :
    (r.removeComponent cid e).hasComponent cid e = false ∧
    (r.removeComponent cid e).hasComponent cid2 e = r.hasComponent cid2 e ∧
    (r.removeComponent cid e).sigOf e2.id = r.sigOf e2.id ∧
    (r.removeComponent cid e).componentPools = r.componentPools := by
  refine ⟨?_, ?_, ?_, rfl⟩
  · show (Registry.sigOf _ e.id).testBit cid = false
    unfold Registry.sigOf Registry.removeComponent
    rw [getD_set_self _ _ _ _ hsig]
    exact testBit_sigReset_self _ cid
  · show (Registry.sigOf _ e.id).testBit cid2 = (r.sigOf e.id).testBit cid2
    unfold Registry.sigOf Registry.removeComponent
    rw [getD_set_self _ _ _ _ hsig]
    exact testBit_sigReset_ne _ hcid
  · unfold Registry.sigOf Registry.removeComponent
    exact getD_set_ne _ _ _ hent

/-- Claim C4 witness: the theorem instantiated at the two-entity fixture registry,
removing component 0 from entity 0 while watching component 1 and entity 1. -/
theorem C4_remove_component_witness :
    (rFix2.removeComponent 0 ⟨0⟩).hasComponent 0 ⟨0⟩ = false ∧
    (rFix2.removeComponent 0 ⟨0⟩).hasComponent 1 ⟨0⟩ = rFix2.hasComponent 1 ⟨0⟩ ∧
    (rFix2.removeComponent 0 ⟨0⟩).sigOf 1 = rFix2.sigOf 1 ∧
    (rFix2.removeComponent 0 ⟨0⟩).componentPools = rFix2.componentPools :=
  C4_remove_component Int rFix2 0 1 ⟨0⟩ ⟨1⟩ (by decide) (by decide) (by decide)

/-- Claim C2: system membership changes only inside `Registry::Update()`:
`CreateEntity`, `AddComponent` and kill-enqueuing leave every system's
matched-entity list unchanged; `Update()` clears both pending queues; and calling
`Update()` when both queues are empty leaves the whole registry — in particular
every system's membership — unchanged. -/
theorem C2_update_batching (α : Type) [Inhabited α] (r rq : Registry α) (cid : Nat)
    (e : Entity) (v : α)
    (h1 : rq.entitiesToBeAdded = [])
    (h2 : rq.entitiesToBeKilled = []) :
    (r.createEntity).2.systems = r.systems ∧
    (r.addComponent cid e v).systems = r.systems ∧
    (r.killEntity e).systems = r.systems ∧
    (r.update).entitiesToBeAdded = [] ∧
    (r.update).entitiesToBeKilled = [] ∧
    rq.update = rq := by
  refine ⟨rfl, rfl, rfl, ?_, rfl, ?_⟩
  · show (Registry.entitiesToBeKilled _ |>.foldl Registry.removeEntityFromSystems
      _).entitiesToBeAdded = []
    rw [foldl_removeEntityFromSystems_toAdd]
  · obtain ⟨n, ta, tk, cp, sg, sy⟩ := rq
    simp only at h1 h2
    subst h1; subst h2
    rfl

/-- Claim C2 witness: the theorem instantiated at the fixture registries (rFix has
empty queues, so its update is the identity). -/
theorem C2_update_batching_witness :
    (rFix2.createEntity).2.systems = rFix2.systems ∧
    (rFix2.addComponent 0 ⟨0⟩ (7 : Int)).systems = rFix2.systems ∧
    (rFix2.killEntity ⟨0⟩).systems = rFix2.systems ∧
    (rFix2.update).entitiesToBeAdded = [] ∧
    (rFix2.update).entitiesToBeKilled = [] ∧
    rFix.update = rFix :=
  C2_update_batching Int rFix2 rFix 0 ⟨0⟩ 7 rfl rfl

/-- Claim C3: for an entity `e` with a valid id, after
`AddComponent<T>(e, args)` the spec's `HasComponent<T>(e)` is true and
`GetComponent<T>(e)` returns exactly the value constructed from `args` that was
written into slot `e.id` of `T`'s pool. -/
theorem C3_add_then_get (α : Type) [Inhabited α] (r : Registry α) (cid : Nat)
    (e : Entity) (v : α)
    (hcid : cid < MAX_COMPONENTS)
    (he : e.id < r.numEntities)
    (hsig : e.id < r.entityComponentSignatures.length) :
    (r.addComponent cid e v).hasComponent cid e = true ∧
    (r.addComponent cid e v).getComponent cid e = some v := by
  constructor
  · show (Registry.sigOf _ e.id).testBit cid = true
    unfold Registry.sigOf Registry.addComponent
    rw [getD_set_self _ _ _ _ hsig]
    exact testBit_sigSet_self _ cid
  · unfold Registry.getComponent Registry.addComponent
    simp only
    set pools0 :=
      (if r.componentPools.length ≤ cid then
        r.componentPools ++ List.replicate (cid + 1 - r.componentPools.length) none
      else r.componentPools) with hpools0
    have hlen : cid < pools0.length := by
      rw [hpools0]
      by_cases h : r.componentPools.length ≤ cid
      · rw [if_pos h]
        simp only [List.length_append, List.length_replicate]
        omega
      · rw [if_neg h]
        omega
    set pool0 : Pool α :=
      (match pools0.getD cid none with
        | none => Pool.mkDefault
        | some p => p) with hpool0
    set pool1 := (if pool0.getSize ≤ e.id then pool0.resize r.numEntities else pool0)
      with hpool1
    have hsz : e.id < pool1.getSize := by
      rw [hpool1]
      by_cases h : pool0.getSize ≤ e.id
      · rw [if_pos h]
        show e.id < (Pool.resize pool0 r.numEntities).data.length
        unfold Pool.resize
        simp only [List.length_append, List.length_take, List.length_replicate]
        unfold Pool.getSize at h
        omega
      · rw [if_neg h]
        omega
    rw [getD_set_self _ _ _ _ hlen]
    show Pool.get (pool1.set e.id v) e.id = some v
    unfold Pool.get Pool.set
    simp only
    exact List.get?_set_eq_of_lt v hsz

/-- Claim C3 witness: the theorem instantiated at the two-entity fixture registry,
adding component 1 with value 42 to entity 1. -/
theorem C3_add_then_get_witness :
    (rFix2.addComponent 1 ⟨1⟩ (42 : Int)).hasComponent 1 ⟨1⟩ = true ∧
    (rFix2.addComponent 1 ⟨1⟩ (42 : Int)).getComponent 1 ⟨1⟩ = some 42 :=
  C3_add_then_get Int rFix2 1 ⟨1⟩ 42 (by decide) (by decide) (by decide)

lemma getD_of_length_le {β : Type} (l : List β) (i : Nat) (d : β)
    (h : l.length ≤ i) : l.getD i d = d := by
  show (l.get? i).getD d = d
  rw [List.get?_eq_none.mpr h]; rfl

lemma pool_getSize_set (p : Pool α) (i : Nat) (v : α) :
    (p.set i v).getSize = p.getSize := by
  unfold Pool.set Pool.getSize
  exact List.length_set p.data i v

lemma pool_getSize_resize [Inhabited α] (p : Pool α) (n : Nat) :
    (p.resize n).getSize = n := by
  unfold Pool.resize Pool.getSize
  simp only [List.length_append, List.length_take, List.length_replicate]
  omega

/-- Claim C7: the pool growth performed by `AddComponent` (the spec's
`EnsureCapacity`, implemented with `Pool::Resize`) leaves the written pool with size
at least `e.id + 1`, never smaller than it was, and with every previously stored slot
other than `e.id` intact; pools of other component kinds are untouched; and no other
Registry operation (`RemoveComponent`, kill-enqueuing, `CreateEntity`, `Update`)
modifies any pool. -/
theorem C7_pool_growth (α : Type) [Inhabited α] (r : Registry α) (cid : Nat)
    (e : Entity) (v : α)
    (he : e.id < r.numEntities) :
    (∃ p2, (r.addComponent cid e v).componentPools.getD cid none = some p2 ∧
      e.id < p2.getSize ∧
      (∀ p, r.componentPools.getD cid none = some p →
        p.getSize ≤ p2.getSize ∧
        (∀ i, i < p.getSize → i ≠ e.id → p2.get i = p.get i))) ∧
    (∀ c2, c2 ≠ cid →
      (r.addComponent cid e v).componentPools.getD c2 none
        = r.componentPools.getD c2 none) ∧
    (r.removeComponent cid e).componentPools = r.componentPools ∧
    (r.killEntity e).componentPools = r.componentPools ∧
    ((r.createEntity).2).componentPools = r.componentPools ∧
    (r.update).componentPools = r.componentPools := by
  have hupdate : (r.update).componentPools = r.componentPools := by
    show ((r.entitiesToBeAdded.foldl Registry.addEntityToSystems r).entitiesToBeKilled.foldl
        Registry.removeEntityFromSystems _).componentPools = r.componentPools
    rw [foldl_removeEntityFromSystems_pools]
    show (r.entitiesToBeAdded.foldl Registry.addEntityToSystems r).componentPools
      = r.componentPools
    rw [foldl_addEntityToSystems_pools]
  refine ⟨?_, ?_, rfl, rfl, rfl, hupdate⟩
  · unfold Registry.addComponent
    simp only
    set pools0 :=
      (if r.componentPools.length ≤ cid then
        r.componentPools ++ List.replicate (cid + 1 - r.componentPools.length) none
      else r.componentPools) with hpools0
    have hlen : cid < pools0.length := by
      rw [hpools0]
      by_cases h : r.componentPools.length ≤ cid
      · rw [if_pos h]
        simp only [List.length_append, List.length_replicate]
        omega
      · rw [if_neg h]
        omega
    set pool0 : Pool α :=
      (match pools0.getD cid none with
        | none => Pool.mkDefault
        | some p => p) with hpool0
    set pool1 := (if pool0.getSize ≤ e.id then pool0.resize r.numEntities else pool0)
      with hpool1
    have hsz1 : e.id < pool1.getSize := by
      rw [hpool1]
      by_cases h : pool0.getSize ≤ e.id
      · rw [if_pos h, pool_getSize_resize]
        omega
      · rw [if_neg h]
        omega
    refine ⟨pool1.set e.id v, getD_set_self _ _ _ _ hlen, ?_, ?_⟩
    · rw [pool_getSize_set]
      exact hsz1
    · intro p hp
      have hinrange : cid < r.componentPools.length := by
        by_contra hcon
        rw [getD_of_length_le _ _ _ (by omega)] at hp
        exact Option.noConfusion hp
      have hsame : pools0 = r.componentPools := by
        rw [hpools0, if_neg (by omega)]
      have hp0 : pool0 = p := by
        rw [hpool0, hsame, hp]
      have hmono : p.getSize ≤ pool1.getSize := by
        rw [hpool1, hp0]
        by_cases h : p.getSize ≤ e.id
        · rw [if_pos h, pool_getSize_resize]
          omega
        · rw [if_neg h]
      refine ⟨by rw [pool_getSize_set]; exact hmono, ?_⟩
      intro i hi hne
      show (pool1.data.set e.id v).get? i = p.get i
      rw [List.get?_set_ne v pool1.data (fun heq => hne heq.symm)]
      rw [hpool1, hp0]
      by_cases h : p.getSize ≤ e.id
      · rw [if_pos h]
        show (p.data.take r.numEntities ++ _).get? i = p.data.get? i
        have htake : p.data.take r.numEntities = p.data := by
          apply List.take_of_length_le
          unfold Pool.getSize at h
          omega
        rw [htake]
        exact List.get?_append hi
      · rw [if_neg h]
        rfl
  · intro c2 hc2
    unfold Registry.addComponent
    simp only
    rw [getD_set_ne _ _ _ hc2]
    by_cases h : r.componentPools.length ≤ cid
    · rw [if_pos h]
      exact getD_append_replicate_none _ _ _
    · rw [if_neg h]

/-- Claim C7 witness: the theorem instantiated at the two-entity fixture registry,
writing component 0 of entity 1 (the pool already holds entity 0's value, which the
theorem shows is preserved). -/
theorem C7_pool_growth_witness :
    (∃ p2, (rFix2.addComponent 0 ⟨1⟩ (9 : Int)).componentPools.getD 0 none = some p2 ∧
      1 < p2.getSize ∧
      (∀ p, rFix2.componentPools.getD 0 none = some p →
        p.getSize ≤ p2.getSize ∧
        (∀ i, i < p.getSize → i ≠ 1 → p2.get i = p.get i))) ∧
    (∀ c2, c2 ≠ 0 →
      (rFix2.addComponent 0 ⟨1⟩ (9 : Int)).componentPools.getD c2 none
        = rFix2.componentPools.getD c2 none) ∧
    (rFix2.removeComponent 0 ⟨1⟩).componentPools = rFix2.componentPools ∧
    (rFix2.killEntity ⟨1⟩).componentPools = rFix2.componentPools ∧
    ((rFix2.createEntity).2).componentPools = rFix2.componentPools ∧
    (rFix2.update).componentPools = rFix2.componentPools :=
  C7_pool_growth Int rFix2 0 ⟨1⟩ 9 (by decide)
